import Mathlib

/-!
Verification of the anatomical coordinate-frame alignment core of the
cranial_landmark_workflow repository (modules `MandibleNerveFlow.py`,
`LandmarkFlow.py`, `CranIALCTAnnotation.py`).

The alignment functions `getFrankfortAlignment` and `getOSeAlignment` build a
composed rotation out of three `vtkTransform` stages (RotateZ, RotateY,
RotateX).  We embed the code over the real numbers: `vtkTransform.RotateZ(a)`
produces the standard 4x4 rotation matrix about the z axis by `a` degrees,
`Concatenate` is matrix multiplication on the right (vtkTransform is in its
default PreMultiply mode, so `T.Concatenate(M)` sets `T := T * M`), and
`TransformPoint` applies the homogeneous matrix to `(x, y, z, 1)`.
`np.arctan2(y, x)` is the two-argument arctangent, embedded as the argument
of the complex number `x + y*i` (the two agree on all inputs, including the
convention `arctan2 0 0 = 0`).

The button handlers `onFrankfort` / `onOSeaAlignment` are embedded as
functions from the configured landmark-name list and the list of placed
fiducial points to an outcome: `raised` models the uncaught `IndexError`
from `np.where(...)[0][0]` on a missing name, `warned` models the
"All necessary landmarks not marked yet" message box followed by `return`
(no transform mutation), and `applied m` models installing the matrix `m`
on the transform node.
-/

open Real Matrix

/-- A 3-component real coordinate (the `[x, y, z]` Python lists). -/
@[ext] structure Point3 where
  x : ℝ
  y : ℝ
  z : ℝ

instance : Add Point3 := ⟨fun p q => ⟨p.x + q.x, p.y + q.y, p.z + q.z⟩⟩
instance : Sub Point3 := ⟨fun p q => ⟨p.x - q.x, p.y - q.y, p.z - q.z⟩⟩

/-- 4x4 homogeneous matrices, the content of a `vtkMatrix4x4`. -/
abbrev Mat4 := Matrix (Fin 4) (Fin 4) ℝ

/-- `np.arctan2 y x`, embedded as the complex argument of `x + y*i`. -/
noncomputable def atan2 (y x : ℝ) : ℝ := Complex.arg ⟨x, y⟩

/-- `vtkTransform.RotateZ` through `t` radians. -/
noncomputable def rotZ (t : ℝ) : Mat4 :=
  !![Real.cos t, -Real.sin t, 0, 0;
     Real.sin t, Real.cos t, 0, 0;
     0, 0, 1, 0;
     0, 0, 0, 1]

/-- `vtkTransform.RotateY` through `t` radians. -/
noncomputable def rotY (t : ℝ) : Mat4 :=
  !![Real.cos t, 0, Real.sin t, 0;
     0, 1, 0, 0;
     -Real.sin t, 0, Real.cos t, 0;
     0, 0, 0, 1]

/-- `vtkTransform.RotateX` through `t` radians. -/
noncomputable def rotX (t : ℝ) : Mat4 :=
  !![1, 0, 0, 0;
     0, Real.cos t, -Real.sin t, 0;
     0, Real.sin t, Real.cos t, 0;
     0, 0, 0, 1]

/-- `vtkTransform.RotateZ(a)` for an angle in degrees, as the code passes it. -/
noncomputable def rotZdeg (a : ℝ) : Mat4 := rotZ (a * Real.pi / 180)

/-- `vtkTransform.RotateY(a)` for an angle in degrees. -/
noncomputable def rotYdeg (a : ℝ) : Mat4 := rotY (a * Real.pi / 180)

/-- `vtkTransform.RotateX(a)` for an angle in degrees. -/
noncomputable def rotXdeg (a : ℝ) : Mat4 := rotX (a * Real.pi / 180)

/-- `vtkTransform.TransformPoint`: apply a homogeneous matrix to `(x,y,z,1)`
and keep the first three components (the matrices produced here always have
last row `(0,0,0,1)`). -/
noncomputable def applyMat (M : Mat4) (p : Point3) : Point3 :=
  ⟨M 0 0 * p.x + M 0 1 * p.y + M 0 2 * p.z + M 0 3,
   M 1 0 * p.x + M 1 1 * p.y + M 1 2 * p.z + M 1 3,
   M 2 0 * p.x + M 2 1 * p.y + M 2 2 * p.z + M 2 3⟩

/-- The linear part of a homogeneous matrix applied to a vector (no
translation column); used to express how differences of transformed points
depend only on differences of the inputs. -/
noncomputable def linMat (M : Mat4) (v : Point3) : Point3 :=
  ⟨M 0 0 * v.x + M 0 1 * v.y + M 0 2 * v.z,
   M 1 0 * v.x + M 1 1 * v.y + M 1 2 * v.z,
   M 2 0 * v.x + M 2 1 * v.y + M 2 2 * v.z⟩

/-- The upper-left 3x3 block of a homogeneous matrix. -/
noncomputable def block3 (M : Mat4) : Matrix (Fin 3) (Fin 3) ℝ :=
  !![M 0 0, M 0 1, M 0 2;
     M 1 0, M 1 1, M 1 2;
     M 2 0, M 2 1, M 2 2]

/-- A homogeneous matrix with zero translation column and last row
`(0,0,0,1)`. -/
def HomFrame (M : Mat4) : Prop :=
  M 0 3 = 0 ∧ M 1 3 = 0 ∧ M 2 3 = 0 ∧
  M 3 0 = 0 ∧ M 3 1 = 0 ∧ M 3 2 = 0 ∧ M 3 3 = 1

/-- The spec's invariant for the produced matrices: the upper-left 3x3 block
`R` satisfies `Rᵀ * R = 1` with determinant `+1`, and the translation column
is exactly `(0, 0, 0)`. -/
def IsPureRotation (M : Mat4) : Prop :=
  (block3 M)ᵀ * block3 M = 1 ∧ (block3 M).det = 1 ∧
  M 0 3 = 0 ∧ M 1 3 = 0 ∧ M 2 3 = 0

/-- `np.where(landmarkNames == nm)[0][0]`: index of the first occurrence of
`nm`, `none` when `nm` does not occur (in which case the Python indexing
raises an uncaught `IndexError`). -/
def whereFirst (names : List String) (nm : String) : Option Nat :=
  match names with
  | [] => none
  | a :: rest => if a = nm then some 0 else (whereFirst rest nm).map (· + 1)

/-- Outcome of a button handler: `raised` = uncaught `IndexError` from the
name lookup, `warned` = "All necessary landmarks not marked yet" message box
and early `return` (no matrix, no transform mutation), `applied m` =
`SetAndObserveMatrixTransformToParent(m)`. -/
inductive AlignOutcome where
  | raised : AlignOutcome
  | warned : AlignOutcome
  | applied : Mat4 → AlignOutcome

namespace MandibleNerveFlow

/-- `MandibleNerveFlowLogic.getFrankfortAlignment` (MandibleNerveFlow.py,
lines 1229-1256).  Each `let` mirrors one Python statement; the final product
reflects `vTransform3.Concatenate(vTransform2); vTransform3.Concatenate(
vTransform)` in vtk's default PreMultiply mode. -/
noncomputable def getFrankfortAlignment (poR poL zyoL : Point3) : Mat4 :=
  let po : Point3 := ⟨poR.x - poL.x, poR.y - poL.y, poR.z - poL.z⟩
  let vTransform := rotZdeg (-atan2 po.y po.x * 180 / Real.pi)
  let po1 := applyMat vTransform poR
  let po2 := applyMat vTransform poL
  let zyo := applyMat vTransform zyoL
  let po' : Point3 := ⟨po1.x - po2.x, po1.y - po2.y, po1.z - po2.z⟩
  let vTransform2 := rotYdeg (atan2 po'.z po'.x * 180 / Real.pi)
  let po1' := applyMat vTransform2 po1
  let po2' := applyMat vTransform2 po2
  let zyo' := applyMat vTransform2 zyo
  let po_zyo : Point3 :=
    ⟨zyo'.x - (po1'.x + po2'.x) / 2, zyo'.y - (po1'.y + po2'.y) / 2,
     zyo'.z - (po1'.z + po2'.z) / 2⟩
  let vTransform3 := rotXdeg (-atan2 po_zyo.z po_zyo.y * 180 / Real.pi)
  vTransform3 * vTransform2 * vTransform

/-- `MandibleNerveFlowLogic.getOSeAlignment` (MandibleNerveFlow.py, lines
1258-1285). -/
noncomputable def getOSeAlignment (poR poL se o : Point3) : Mat4 :=
  let po : Point3 := ⟨poR.x - poL.x, poR.y - poL.y, poR.z - poL.z⟩
  let vTransform := rotZdeg (-atan2 po.y po.x * 180 / Real.pi)
  let po1 := applyMat vTransform poR
  let po2 := applyMat vTransform poL
  let se1 := applyMat vTransform se
  let o1 := applyMat vTransform o
  let po' : Point3 := ⟨po1.x - po2.x, po1.y - po2.y, po1.z - po2.z⟩
  let vTransform2 := rotYdeg (atan2 po'.z po'.x * 180 / Real.pi)
  let se1' := applyMat vTransform2 se1
  let o1' := applyMat vTransform2 o1
  let o_se : Point3 := ⟨se1'.x - o1'.x, se1'.y - o1'.y, se1'.z - o1'.z⟩
  let vTransform3 := rotXdeg (-atan2 o_se.z o_se.y * 180 / Real.pi)
  vTransform3 * vTransform2 * vTransform

/-- Stage 1 of `getFrankfortAlignment`: `vTransform` (RotateZ). -/
noncomputable def frankfortT1 (poR poL : Point3) : Mat4 :=
  rotZdeg (-atan2 (poR.y - poL.y) (poR.x - poL.x) * 180 / Real.pi)

/-- Stage 2 of `getFrankfortAlignment`: `vTransform2` (RotateY), whose angle
is computed from the stage-1-transformed `poR`, `poL`. -/
noncomputable def frankfortT2 (poR poL : Point3) : Mat4 :=
  rotYdeg (atan2
    ((applyMat (frankfortT1 poR poL) poR).z - (applyMat (frankfortT1 poR poL) poL).z)
    ((applyMat (frankfortT1 poR poL) poR).x - (applyMat (frankfortT1 poR poL) poL).x)
    * 180 / Real.pi)

/-- Stage 3 of `getFrankfortAlignment`: `vTransform3` (RotateX), whose angle
comes from the vector from the transformed midpoint of `poR`, `poL` to the
transformed `zyoL`. -/
noncomputable def frankfortT3 (poR poL zyoL : Point3) : Mat4 :=
  let po1 := applyMat (frankfortT2 poR poL) (applyMat (frankfortT1 poR poL) poR)
  let po2 := applyMat (frankfortT2 poR poL) (applyMat (frankfortT1 poR poL) poL)
  let zyo := applyMat (frankfortT2 poR poL) (applyMat (frankfortT1 poR poL) zyoL)
  rotXdeg (-atan2 (zyo.z - (po1.z + po2.z) / 2) (zyo.y - (po1.y + po2.y) / 2)
    * 180 / Real.pi)

/-- Stage 1 of `getOSeAlignment` (textually identical to the Frankfort
stage 1). -/
noncomputable def oSeT1 (poR poL : Point3) : Mat4 :=
  rotZdeg (-atan2 (poR.y - poL.y) (poR.x - poL.x) * 180 / Real.pi)

/-- Stage 2 of `getOSeAlignment` (textually identical to the Frankfort
stage 2). -/
noncomputable def oSeT2 (poR poL : Point3) : Mat4 :=
  rotYdeg (atan2
    ((applyMat (oSeT1 poR poL) poR).z - (applyMat (oSeT1 poR poL) poL).z)
    ((applyMat (oSeT1 poR poL) poR).x - (applyMat (oSeT1 poR poL) poL).x)
    * 180 / Real.pi)

/-- Stage 3 of `getOSeAlignment`: RotateX from the vector `se - o` after the
first two stages have been applied to both points. -/
noncomputable def oSeT3 (poR poL se o : Point3) : Mat4 :=
  let se1 := applyMat (oSeT2 poR poL) (applyMat (oSeT1 poR poL) se)
  let o1 := applyMat (oSeT2 poR poL) (applyMat (oSeT1 poR poL) o)
  rotXdeg (-atan2 (se1.z - o1.z) (se1.y - o1.y) * 180 / Real.pi)

/-- `MandibleNerveFlowWidget.onFrankfort` (MandibleNerveFlow.py, lines
613-649; the identical handler is in LandmarkFlow.py, lines 556-593), as a
function of the configured landmark-name list and the placed fiducial
points.  The handler first relabels every placed control point with
`self.landmarkNames[i]` (lines 615-616); when more points are placed than
there are configured names, that `np.array` indexing raises an uncaught
`IndexError` (`raised`).  Then the three `np.where(...)[0][0]` lookups run
before the count guard, so any missing name also raises; otherwise the
guard `(n <= zyoL_id) | (n <= poR_id) | (n <= poL_id)` either warns and
returns, or the matrix is computed from `GetNthFiducialPosition` and
applied.  -/
noncomputable def onFrankfort (landmarkNames : List String)
    (fiducials : List Point3) : AlignOutcome :=
  if landmarkNames.length < fiducials.length then AlignOutcome.raised
  else
  match whereFirst landmarkNames "zyoL", whereFirst landmarkNames "poR",
      whereFirst landmarkNames "poL" with
  | some zyoL_id, some poR_id, some poL_id =>
    if fiducials.length ≤ zyoL_id ∨ fiducials.length ≤ poR_id ∨
        fiducials.length ≤ poL_id then
      AlignOutcome.warned
    else
      AlignOutcome.applied (getFrankfortAlignment
        (fiducials.getD poR_id ⟨0, 0, 0⟩)
        (fiducials.getD poL_id ⟨0, 0, 0⟩)
        (fiducials.getD zyoL_id ⟨0, 0, 0⟩))
  | _, _, _ => AlignOutcome.raised

/-- `MandibleNerveFlowWidget.onOSeaAlignment` (MandibleNerveFlow.py, lines
689-729), embedded like `onFrankfort`, including the relabel loop of lines
691-692 that raises when placed points outnumber configured names. -/
noncomputable def onOSeaAlignment (landmarkNames : List String)
    (fiducials : List Point3) : AlignOutcome :=
  if landmarkNames.length < fiducials.length then AlignOutcome.raised
  else
  match whereFirst landmarkNames "o", whereFirst landmarkNames "se",
      whereFirst landmarkNames "poR", whereFirst landmarkNames "poL" with
  | some o_id, some se_id, some poR_id, some poL_id =>
    if fiducials.length ≤ se_id ∨ fiducials.length ≤ o_id ∨
        fiducials.length ≤ poR_id ∨ fiducials.length ≤ poL_id then
      AlignOutcome.warned
    else
      AlignOutcome.applied (getOSeAlignment
        (fiducials.getD poR_id ⟨0, 0, 0⟩)
        (fiducials.getD poL_id ⟨0, 0, 0⟩)
        (fiducials.getD se_id ⟨0, 0, 0⟩)
        (fiducials.getD o_id ⟨0, 0, 0⟩))
  | _, _, _, _ => AlignOutcome.raised

end MandibleNerveFlow

namespace LandmarkFlow

/-- `LandmarkFlowLogic.getFrankfortAlignment` (LandmarkFlow.py, lines
1243-1270), transcribed independently from its own source text. -/
noncomputable def getFrankfortAlignment (poR poL zyoL : Point3) : Mat4 :=
  let po : Point3 := ⟨poR.x - poL.x, poR.y - poL.y, poR.z - poL.z⟩
  let vTransform := rotZdeg (-atan2 po.y po.x * 180 / Real.pi)
  let po1 := applyMat vTransform poR
  let po2 := applyMat vTransform poL
  let zyo := applyMat vTransform zyoL
  let po' : Point3 := ⟨po1.x - po2.x, po1.y - po2.y, po1.z - po2.z⟩
  let vTransform2 := rotYdeg (atan2 po'.z po'.x * 180 / Real.pi)
  let po1' := applyMat vTransform2 po1
  let po2' := applyMat vTransform2 po2
  let zyo' := applyMat vTransform2 zyo
  let po_zyo : Point3 :=
    ⟨zyo'.x - (po1'.x + po2'.x) / 2, zyo'.y - (po1'.y + po2'.y) / 2,
     zyo'.z - (po1'.z + po2'.z) / 2⟩
  let vTransform3 := rotXdeg (-atan2 po_zyo.z po_zyo.y * 180 / Real.pi)
  vTransform3 * vTransform2 * vTransform

/-- `LandmarkFlowLogic.getOSeAlignment` (LandmarkFlow.py, lines 1272-1300). -/
noncomputable def getOSeAlignment (poR poL se o : Point3) : Mat4 :=
  let po : Point3 := ⟨poR.x - poL.x, poR.y - poL.y, poR.z - poL.z⟩
  let vTransform := rotZdeg (-atan2 po.y po.x * 180 / Real.pi)
  let po1 := applyMat vTransform poR
  let po2 := applyMat vTransform poL
  let se1 := applyMat vTransform se
  let o1 := applyMat vTransform o
  let po' : Point3 := ⟨po1.x - po2.x, po1.y - po2.y, po1.z - po2.z⟩
  let vTransform2 := rotYdeg (atan2 po'.z po'.x * 180 / Real.pi)
  let se1' := applyMat vTransform2 se1
  let o1' := applyMat vTransform2 o1
  let o_se : Point3 := ⟨se1'.x - o1'.x, se1'.y - o1'.y, se1'.z - o1'.z⟩
  let vTransform3 := rotXdeg (-atan2 o_se.z o_se.y * 180 / Real.pi)
  vTransform3 * vTransform2 * vTransform

end LandmarkFlow

namespace CranIALCT

/-- `CranIALCTAnnotationLogic.getFrankfortAlignment` (CranIALCTAnnotation.py,
lines 1160-1187), transcribed independently from its own source text. -/
noncomputable def getFrankfortAlignment (poR poL zyoL : Point3) : Mat4 :=
  let po : Point3 := ⟨poR.x - poL.x, poR.y - poL.y, poR.z - poL.z⟩
  let vTransform := rotZdeg (-atan2 po.y po.x * 180 / Real.pi)
  let po1 := applyMat vTransform poR
  let po2 := applyMat vTransform poL
  let zyo := applyMat vTransform zyoL
  let po' : Point3 := ⟨po1.x - po2.x, po1.y - po2.y, po1.z - po2.z⟩
  let vTransform2 := rotYdeg (atan2 po'.z po'.x * 180 / Real.pi)
  let po1' := applyMat vTransform2 po1
  let po2' := applyMat vTransform2 po2
  let zyo' := applyMat vTransform2 zyo
  let po_zyo : Point3 :=
    ⟨zyo'.x - (po1'.x + po2'.x) / 2, zyo'.y - (po1'.y + po2'.y) / 2,
     zyo'.z - (po1'.z + po2'.z) / 2⟩
  let vTransform3 := rotXdeg (-atan2 po_zyo.z po_zyo.y * 180 / Real.pi)
  vTransform3 * vTransform2 * vTransform

/-- `CranIALCTAnnotationLogic.getOSeAlignment` (CranIALCTAnnotation.py,
lines 1189-1216). -/
noncomputable def getOSeAlignment (poR poL se o : Point3) : Mat4 :=
  let po : Point3 := ⟨poR.x - poL.x, poR.y - poL.y, poR.z - poL.z⟩
  let vTransform := rotZdeg (-atan2 po.y po.x * 180 / Real.pi)
  let po1 := applyMat vTransform poR
  let po2 := applyMat vTransform poL
  let se1 := applyMat vTransform se
  let o1 := applyMat vTransform o
  let po' : Point3 := ⟨po1.x - po2.x, po1.y - po2.y, po1.z - po2.z⟩
  let vTransform2 := rotYdeg (atan2 po'.z po'.x * 180 / Real.pi)
  let se1' := applyMat vTransform2 se1
  let o1' := applyMat vTransform2 o1
  let o_se : Point3 := ⟨se1'.x - o1'.x, se1'.y - o1'.y, se1'.z - o1'.z⟩
  let vTransform3 := rotXdeg (-atan2 o_se.z o_se.y * 180 / Real.pi)
  vTransform3 * vTransform2 * vTransform

end CranIALCT

section Helpers

@[simp] lemma Point3.add_x (p q : Point3) : (p + q).x = p.x + q.x := rfl

@[simp] lemma Point3.add_y (p q : Point3) : (p + q).y = p.y + q.y := rfl

@[simp] lemma Point3.add_z (p q : Point3) : (p + q).z = p.z + q.z := rfl

@[simp] lemma Point3.sub_x (p q : Point3) : (p - q).x = p.x - q.x := rfl

@[simp] lemma Point3.sub_y (p q : Point3) : (p - q).y = p.y - q.y := rfl

@[simp] lemma Point3.sub_z (p q : Point3) : (p - q).z = p.z - q.z := rfl

/-- The code converts radians to degrees before handing the angle to vtk,
which converts back: the round trip is the identity. -/
lemma rotZdeg_eq (a : ℝ) : rotZdeg (a * 180 / Real.pi) = rotZ a := by
  unfold rotZdeg
  congr 1
  field_simp

lemma rotYdeg_eq (a : ℝ) : rotYdeg (a * 180 / Real.pi) = rotY a := by
  unfold rotYdeg
  congr 1
  field_simp

lemma rotXdeg_eq (a : ℝ) : rotXdeg (a * 180 / Real.pi) = rotX a := by
  unfold rotXdeg
  congr 1
  field_simp

lemma rotZ_apply (t : ℝ) (p : Point3) :
    applyMat (rotZ t) p =
      ⟨Real.cos t * p.x - Real.sin t * p.y,
       Real.sin t * p.x + Real.cos t * p.y, p.z⟩ := by
  refine Point3.ext ?_ ?_ ?_ <;> simp [applyMat, rotZ, Matrix.vecHead, Matrix.vecTail] <;> ring

lemma rotY_apply (t : ℝ) (p : Point3) :
    applyMat (rotY t) p =
      ⟨Real.cos t * p.x + Real.sin t * p.z, p.y,
       -Real.sin t * p.x + Real.cos t * p.z⟩ := by
  refine Point3.ext ?_ ?_ ?_ <;> simp [applyMat, rotY, Matrix.vecHead, Matrix.vecTail] <;> ring

lemma rotX_apply (t : ℝ) (p : Point3) :
    applyMat (rotX t) p =
      ⟨p.x, Real.cos t * p.y - Real.sin t * p.z,
       Real.sin t * p.y + Real.cos t * p.z⟩ := by
  refine Point3.ext ?_ ?_ ?_ <;> simp [applyMat, rotX, Matrix.vecHead, Matrix.vecTail] <;> ring

lemma rotZ_zero : rotZ 0 = 1 := by
  ext i j
  fin_cases i <;> fin_cases j <;> simp [rotZ, Matrix.vecHead, Matrix.vecTail, Matrix.one_apply]

lemma rotY_zero : rotY 0 = 1 := by
  ext i j
  fin_cases i <;> fin_cases j <;> simp [rotY, Matrix.vecHead, Matrix.vecTail, Matrix.one_apply]

lemma rotX_zero : rotX 0 = 1 := by
  ext i j
  fin_cases i <;> fin_cases j <;> simp [rotX, Matrix.vecHead, Matrix.vecTail, Matrix.one_apply]

lemma applyMat_one (p : Point3) : applyMat 1 p = p := by
  refine Point3.ext ?_ ?_ ?_ <;> simp [applyMat, Matrix.one_apply]

lemma homFrame_rotZ (t : ℝ) : HomFrame (rotZ t) := by
  refine ⟨?_, ?_, ?_, ?_, ?_, ?_, ?_⟩ <;> simp [rotZ, Matrix.vecHead, Matrix.vecTail]

lemma homFrame_rotY (t : ℝ) : HomFrame (rotY t) := by
  refine ⟨?_, ?_, ?_, ?_, ?_, ?_, ?_⟩ <;> simp [rotY, Matrix.vecHead, Matrix.vecTail]

lemma homFrame_rotX (t : ℝ) : HomFrame (rotX t) := by
  refine ⟨?_, ?_, ?_, ?_, ?_, ?_, ?_⟩ <;> simp [rotX, Matrix.vecHead, Matrix.vecTail]

lemma homFrame_rotZdeg (a : ℝ) : HomFrame (rotZdeg a) := homFrame_rotZ _

lemma homFrame_rotYdeg (a : ℝ) : HomFrame (rotYdeg a) := homFrame_rotY _

lemma homFrame_rotXdeg (a : ℝ) : HomFrame (rotXdeg a) := homFrame_rotX _

lemma homFrame_mul {A B : Mat4} (hA : HomFrame A) (hB : HomFrame B) :
    HomFrame (A * B) := by
  obtain ⟨a1, a2, a3, a4, a5, a6, a7⟩ := hA
  obtain ⟨b1, b2, b3, b4, b5, b6, b7⟩ := hB
  refine ⟨?_, ?_, ?_, ?_, ?_, ?_, ?_⟩ <;>
    simp [Matrix.mul_apply, Fin.sum_univ_four, a1, a2, a3, a4, a5, a6, a7,
      b1, b2, b3, b4, b5, b6, b7]

/-- Applying a product of homogeneous matrices is applying them in turn,
provided the inner one has last row `(0,0,0,1)`. -/
lemma applyMat_mul (A : Mat4) {B : Mat4} (hB : HomFrame B) (p : Point3) :
    applyMat (A * B) p = applyMat A (applyMat B p) := by
  obtain ⟨-, -, -, b4, b5, b6, b7⟩ := hB
  refine Point3.ext ?_ ?_ ?_ <;>
    simp [applyMat, Matrix.mul_apply, Fin.sum_univ_four, b4, b5, b6, b7] <;>
    ring

lemma applyMat_sub (M : Mat4) (p q : Point3) :
    applyMat M p - applyMat M q = linMat M (p - q) := by
  refine Point3.ext ?_ ?_ ?_ <;> simp [applyMat, linMat] <;> ring

lemma applyMat_add_lin (M : Mat4) (p t : Point3) :
    applyMat M (p + t) = applyMat M p + linMat M t := by
  refine Point3.ext ?_ ?_ ?_ <;> simp [applyMat, linMat] <;> ring

lemma linMat_eq_applyMat {M : Mat4} (h1 : M 0 3 = 0) (h2 : M 1 3 = 0)
    (h3 : M 2 3 = 0) (v : Point3) : linMat M v = applyMat M v := by
  refine Point3.ext ?_ ?_ ?_ <;> simp [applyMat, linMat, h1, h2, h3]

end Helpers

section Atan2

lemma atan2_zero_of_nonneg {x : ℝ} (hx : 0 ≤ x) : atan2 0 x = 0 := by
  rw [atan2, Complex.arg_eq_zero_iff]
  exact ⟨hx, rfl⟩

lemma sin_atan2 (y x : ℝ) :
    Real.sin (atan2 y x) = y / Real.sqrt (x ^ 2 + y ^ 2) := by
  rw [atan2, Complex.sin_arg, Complex.abs_apply, Complex.normSq_mk]
  ring_nf

lemma cos_atan2 {y x : ℝ} (h : ¬(x = 0 ∧ y = 0)) :
    Real.cos (atan2 y x) = x / Real.sqrt (x ^ 2 + y ^ 2) := by
  have hz : (⟨x, y⟩ : ℂ) ≠ 0 := by
    intro hc
    exact h ⟨congrArg Complex.re hc, congrArg Complex.im hc⟩
  rw [atan2, Complex.cos_arg hz, Complex.abs_apply, Complex.normSq_mk]
  ring_nf

/-- Stage-1 effect on a difference vector: RotateZ by `-arctan2(dy, dx)`
carries `(dx, dy, dz)` to `(sqrt (dx^2+dy^2), 0, dz)` (also in the
degenerate case `dx = dy = 0`, where `arctan2 0 0 = 0`). -/
lemma rotZ_align (dx dy dz : ℝ) :
    applyMat (rotZ (-atan2 dy dx)) ⟨dx, dy, dz⟩ =
      ⟨Real.sqrt (dx ^ 2 + dy ^ 2), 0, dz⟩ := by
  have hform : applyMat (rotZ (-atan2 dy dx)) ⟨dx, dy, dz⟩ =
      ⟨Real.cos (atan2 dy dx) * dx + Real.sin (atan2 dy dx) * dy,
       -Real.sin (atan2 dy dx) * dx + Real.cos (atan2 dy dx) * dy, dz⟩ := by
    rw [rotZ_apply]
    refine Point3.ext ?_ ?_ rfl <;>
      simp [Real.cos_neg, Real.sin_neg] <;> ring
  rw [hform]
  by_cases h : dx = 0 ∧ dy = 0
  · obtain ⟨h1, h2⟩ := h
    subst h1; subst h2
    refine Point3.ext ?_ ?_ rfl <;> simp
  · have hs : 0 < Real.sqrt (dx ^ 2 + dy ^ 2) := by
      rcases not_and_or.mp h with h1 | h1 <;>
        exact Real.sqrt_pos.mpr (by positivity)
    have hsq : Real.sqrt (dx ^ 2 + dy ^ 2) ^ 2 = dx ^ 2 + dy ^ 2 :=
      Real.sq_sqrt (by positivity)
    rw [cos_atan2 h, sin_atan2]
    refine Point3.ext ?_ ?_ rfl
    · field_simp
      nlinarith [hsq]
    · field_simp
      left
      ring

/-- Stage-2 effect on a difference vector: RotateY by `arctan2(dz, dx)`
carries `(dx, dy, dz)` to `(sqrt (dx^2+dz^2), dy, 0)`. -/
lemma rotY_align (dx dy dz : ℝ) :
    applyMat (rotY (atan2 dz dx)) ⟨dx, dy, dz⟩ =
      ⟨Real.sqrt (dx ^ 2 + dz ^ 2), dy, 0⟩ := by
  rw [rotY_apply]
  by_cases h : dx = 0 ∧ dz = 0
  · obtain ⟨h1, h2⟩ := h
    subst h1; subst h2
    refine Point3.ext ?_ rfl ?_ <;> simp
  · have hs : 0 < Real.sqrt (dx ^ 2 + dz ^ 2) := by
      rcases not_and_or.mp h with h1 | h1 <;>
        exact Real.sqrt_pos.mpr (by positivity)
    have hsq : Real.sqrt (dx ^ 2 + dz ^ 2) ^ 2 = dx ^ 2 + dz ^ 2 :=
      Real.sq_sqrt (by positivity)
    rw [cos_atan2 h, sin_atan2]
    refine Point3.ext ?_ rfl ?_
    · field_simp
      nlinarith [hsq]
    · field_simp
      left
      ring

/-- Stage-3 effect: RotateX by `-arctan2(dz, dy)` carries `(dx, dy, dz)` to
`(dx, sqrt (dy^2+dz^2), 0)`. -/
lemma rotX_align (dx dy dz : ℝ) :
    applyMat (rotX (-atan2 dz dy)) ⟨dx, dy, dz⟩ =
      ⟨dx, Real.sqrt (dy ^ 2 + dz ^ 2), 0⟩ := by
  have hform : applyMat (rotX (-atan2 dz dy)) ⟨dx, dy, dz⟩ =
      ⟨dx, Real.cos (atan2 dz dy) * dy + Real.sin (atan2 dz dy) * dz,
       -Real.sin (atan2 dz dy) * dy + Real.cos (atan2 dz dy) * dz⟩ := by
    rw [rotX_apply]
    refine Point3.ext rfl ?_ ?_ <;>
      simp [Real.cos_neg, Real.sin_neg] <;> ring
  rw [hform]
  by_cases h : dy = 0 ∧ dz = 0
  · obtain ⟨h1, h2⟩ := h
    subst h1; subst h2
    refine Point3.ext rfl ?_ ?_ <;> simp
  · have hs : 0 < Real.sqrt (dy ^ 2 + dz ^ 2) := by
      rcases not_and_or.mp h with h1 | h1 <;>
        exact Real.sqrt_pos.mpr (by positivity)
    have hsq : Real.sqrt (dy ^ 2 + dz ^ 2) ^ 2 = dy ^ 2 + dz ^ 2 :=
      Real.sq_sqrt (by positivity)
    rw [cos_atan2 h, sin_atan2]
    refine Point3.ext rfl ?_ ?_
    · field_simp
      nlinarith [hsq]
    · field_simp
      left
      ring

end Atan2

section Orthogonality

lemma block3_rotZ (t : ℝ) :
    block3 (rotZ t) = !![Real.cos t, -Real.sin t, 0;
                         Real.sin t, Real.cos t, 0;
                         0, 0, 1] := by
  simp [block3, rotZ, Matrix.vecHead, Matrix.vecTail]

lemma block3_rotY (t : ℝ) :
    block3 (rotY t) = !![Real.cos t, 0, Real.sin t;
                         0, 1, 0;
                         -Real.sin t, 0, Real.cos t] := by
  simp [block3, rotY, Matrix.vecHead, Matrix.vecTail]

lemma block3_rotX (t : ℝ) :
    block3 (rotX t) = !![1, 0, 0;
                         0, Real.cos t, -Real.sin t;
                         0, Real.sin t, Real.cos t] := by
  simp [block3, rotX, Matrix.vecHead, Matrix.vecTail]

/-- The rotation block of a product of homogeneous matrices whose
translation columns vanish is the product of the rotation blocks. -/
lemma block3_mul {A B : Mat4} (hA : HomFrame A) :
    block3 (A * B) = block3 A * block3 B := by
  obtain ⟨a1, a2, a3, -, -, -, -⟩ := hA
  ext i j
  fin_cases i <;> fin_cases j <;>
    simp [block3, Matrix.mul_apply, Fin.sum_univ_four, Fin.sum_univ_three,
      Matrix.vecHead, Matrix.vecTail, a1, a2, a3] <;> ring

/-- An orthogonal 3x3 matrix of determinant one. -/
def IsRot3 (R : Matrix (Fin 3) (Fin 3) ℝ) : Prop :=
  Rᵀ * R = 1 ∧ R.det = 1

lemma isRot3_mul {A B : Matrix (Fin 3) (Fin 3) ℝ} (hA : IsRot3 A)
    (hB : IsRot3 B) : IsRot3 (A * B) := by
  constructor
  · calc (A * B)ᵀ * (A * B) = Bᵀ * (Aᵀ * A) * B := by
          rw [Matrix.transpose_mul]
          noncomm_ring
      _ = Bᵀ * B := by rw [hA.1]; noncomm_ring
      _ = 1 := hB.1
  · rw [Matrix.det_mul, hA.2, hB.2, mul_one]

lemma isRot3_block_rotZ (t : ℝ) : IsRot3 (block3 (rotZ t)) := by
  rw [block3_rotZ]
  constructor
  · ext i j
    fin_cases i <;> fin_cases j <;>
      simp [Matrix.mul_apply, Fin.sum_univ_three, Matrix.transpose_apply,
        Matrix.vecHead, Matrix.vecTail, Matrix.one_apply] <;>
      nlinarith [Real.sin_sq_add_cos_sq t]
  · rw [Matrix.det_fin_three]
    simp [Matrix.vecHead, Matrix.vecTail]
    nlinarith [Real.sin_sq_add_cos_sq t]

lemma isRot3_block_rotY (t : ℝ) : IsRot3 (block3 (rotY t)) := by
  rw [block3_rotY]
  constructor
  · ext i j
    fin_cases i <;> fin_cases j <;>
      simp [Matrix.mul_apply, Fin.sum_univ_three, Matrix.transpose_apply,
        Matrix.vecHead, Matrix.vecTail, Matrix.one_apply] <;>
      nlinarith [Real.sin_sq_add_cos_sq t]
  · rw [Matrix.det_fin_three]
    simp [Matrix.vecHead, Matrix.vecTail]
    nlinarith [Real.sin_sq_add_cos_sq t]

lemma isRot3_block_rotX (t : ℝ) : IsRot3 (block3 (rotX t)) := by
  rw [block3_rotX]
  constructor
  · ext i j
    fin_cases i <;> fin_cases j <;>
      simp [Matrix.mul_apply, Fin.sum_univ_three, Matrix.transpose_apply,
        Matrix.vecHead, Matrix.vecTail, Matrix.one_apply] <;>
      nlinarith [Real.sin_sq_add_cos_sq t]
  · rw [Matrix.det_fin_three]
    simp [Matrix.vecHead, Matrix.vecTail]
    nlinarith [Real.sin_sq_add_cos_sq t]

/-- Any vtk transform of the code's shape RotateX * RotateY * RotateZ (with
degree angles) is a pure rotation. -/
lemma isPureRotation_stages (a b c : ℝ) :
    IsPureRotation (rotXdeg a * rotYdeg b * rotZdeg c) := by
  have hX : HomFrame (rotXdeg a) := homFrame_rotXdeg a
  have hY : HomFrame (rotYdeg b) := homFrame_rotYdeg b
  have hXY : HomFrame (rotXdeg a * rotYdeg b) := homFrame_mul hX hY
  have hrot : IsRot3 (block3 (rotXdeg a * rotYdeg b * rotZdeg c)) := by
    rw [block3_mul hXY, block3_mul hX]
    exact isRot3_mul (isRot3_mul (isRot3_block_rotX _) (isRot3_block_rotY _))
      (isRot3_block_rotZ _)
  have hfr : HomFrame (rotXdeg a * rotYdeg b * rotZdeg c) :=
    homFrame_mul hXY (homFrame_rotZdeg c)
  exact ⟨hrot.1, hrot.2, hfr.1, hfr.2.1, hfr.2.2.1⟩

end Orthogonality

namespace MandibleNerveFlow

/-- `getFrankfortAlignment` is the product of its three stages. -/
lemma getFrankfortAlignment_stages (poR poL zyoL : Point3) :
    getFrankfortAlignment poR poL zyoL =
      frankfortT3 poR poL zyoL * frankfortT2 poR poL * frankfortT1 poR poL :=
  rfl

/-- `getOSeAlignment` is the product of its three stages. -/
lemma getOSeAlignment_stages (poR poL se o : Point3) :
    getOSeAlignment poR poL se o =
      oSeT3 poR poL se o * oSeT2 poR poL * oSeT1 poR poL :=
  rfl

end MandibleNerveFlow

namespace MandibleNerveFlow

lemma frankfortT1_eq (poR poL : Point3) :
    frankfortT1 poR poL = rotZ (-atan2 (poR.y - poL.y) (poR.x - poL.x)) := by
  unfold frankfortT1
  exact rotZdeg_eq _

lemma homFrame_frankfortT1 (poR poL : Point3) : HomFrame (frankfortT1 poR poL) :=
  homFrame_rotZdeg _

lemma homFrame_frankfortT2 (poR poL : Point3) : HomFrame (frankfortT2 poR poL) :=
  homFrame_rotYdeg _

lemma homFrame_frankfortT3 (poR poL zyoL : Point3) :
    HomFrame (frankfortT3 poR poL zyoL) :=
  homFrame_rotXdeg _

lemma homFrame_oSeT1 (poR poL : Point3) : HomFrame (oSeT1 poR poL) :=
  homFrame_rotZdeg _

lemma homFrame_oSeT2 (poR poL : Point3) : HomFrame (oSeT2 poR poL) :=
  homFrame_rotYdeg _

lemma homFrame_oSeT3 (poR poL se o : Point3) : HomFrame (oSeT3 poR poL se o) :=
  homFrame_rotXdeg _

/-- After stage 1 the difference `poR - poL` has been rotated into the
`x`-`z` plane. -/
lemma frankfort_diff1 (poR poL : Point3) :
    applyMat (frankfortT1 poR poL) poR - applyMat (frankfortT1 poR poL) poL =
      ⟨Real.sqrt ((poR.x - poL.x) ^ 2 + (poR.y - poL.y) ^ 2), 0,
       poR.z - poL.z⟩ := by
  rw [frankfortT1_eq, applyMat_sub]
  obtain ⟨h1, h2, h3, -⟩ := homFrame_rotZ (-atan2 (poR.y - poL.y) (poR.x - poL.x))
  rw [linMat_eq_applyMat h1 h2 h3]
  exact rotZ_align (poR.x - poL.x) (poR.y - poL.y) (poR.z - poL.z)

/-- Stage 2 in radian form: its angle is `arctan2` of the components of the
stage-1 difference. -/
lemma frankfortT2_eq (poR poL : Point3) :
    frankfortT2 poR poL =
      rotY (atan2 (poR.z - poL.z)
        (Real.sqrt ((poR.x - poL.x) ^ 2 + (poR.y - poL.y) ^ 2))) := by
  have hz : (applyMat (frankfortT1 poR poL) poR).z -
      (applyMat (frankfortT1 poR poL) poL).z = poR.z - poL.z := by
    have h := congrArg Point3.z (frankfort_diff1 poR poL)
    simpa using h
  have hx : (applyMat (frankfortT1 poR poL) poR).x -
      (applyMat (frankfortT1 poR poL) poL).x =
      Real.sqrt ((poR.x - poL.x) ^ 2 + (poR.y - poL.y) ^ 2) := by
    have h := congrArg Point3.x (frankfort_diff1 poR poL)
    simpa using h
  unfold frankfortT2
  rw [hz, hx, rotYdeg_eq]

/-- After stages 1 and 2 the difference `poR - poL` points along the `x`
axis. -/
lemma frankfort_diff2 (poR poL : Point3) :
    applyMat (frankfortT2 poR poL) (applyMat (frankfortT1 poR poL) poR) -
      applyMat (frankfortT2 poR poL) (applyMat (frankfortT1 poR poL) poL) =
      ⟨Real.sqrt (Real.sqrt ((poR.x - poL.x) ^ 2 + (poR.y - poL.y) ^ 2) ^ 2
        + (poR.z - poL.z) ^ 2), 0, 0⟩ := by
  rw [frankfortT2_eq, applyMat_sub]
  obtain ⟨h1, h2, h3, -⟩ := homFrame_rotY (atan2 (poR.z - poL.z)
    (Real.sqrt ((poR.x - poL.x) ^ 2 + (poR.y - poL.y) ^ 2)))
  rw [linMat_eq_applyMat h1 h2 h3, frankfort_diff1]
  exact rotY_align _ 0 _

/-- The full Frankfort matrix maps `poR` and `poL` to points that differ
only in their `x` coordinate. -/
lemma frankfort_diff (poR poL zyoL : Point3) :
    applyMat (getFrankfortAlignment poR poL zyoL) poR -
      applyMat (getFrankfortAlignment poR poL zyoL) poL =
      ⟨Real.sqrt (Real.sqrt ((poR.x - poL.x) ^ 2 + (poR.y - poL.y) ^ 2) ^ 2
        + (poR.z - poL.z) ^ 2), 0, 0⟩ := by
  rw [getFrankfortAlignment_stages]
  rw [applyMat_mul _ (homFrame_frankfortT1 poR poL),
    applyMat_mul _ (homFrame_frankfortT2 poR poL),
    applyMat_mul _ (homFrame_frankfortT1 poR poL),
    applyMat_mul _ (homFrame_frankfortT2 poR poL)]
  rw [applyMat_sub]
  obtain ⟨h1, h2, h3, -⟩ := homFrame_frankfortT3 poR poL zyoL
  rw [linMat_eq_applyMat h1 h2 h3, frankfort_diff2]
  have h3eq : frankfortT3 poR poL zyoL = rotX (-atan2
      ((applyMat (frankfortT2 poR poL) (applyMat (frankfortT1 poR poL) zyoL)).z -
        ((applyMat (frankfortT2 poR poL) (applyMat (frankfortT1 poR poL) poR)).z +
         (applyMat (frankfortT2 poR poL) (applyMat (frankfortT1 poR poL) poL)).z) / 2)
      ((applyMat (frankfortT2 poR poL) (applyMat (frankfortT1 poR poL) zyoL)).y -
        ((applyMat (frankfortT2 poR poL) (applyMat (frankfortT1 poR poL) poR)).y +
         (applyMat (frankfortT2 poR poL) (applyMat (frankfortT1 poR poL) poL)).y) / 2)) := by
    unfold frankfortT3
    exact rotXdeg_eq _
  rw [h3eq, rotX_apply]
  refine Point3.ext rfl ?_ ?_ <;> simp

end MandibleNerveFlow

open MandibleNerveFlow

/-- C1: for every input triple/quadruple of 3D points, the 4x4 matrix
returned by `getFrankfortAlignment` and by `getOSeAlignment` is a pure
rotation: its upper-left 3x3 block `R` satisfies `Rᵀ * R = 1` with
determinant `+1`, and its translation column is exactly `(0, 0, 0)`. -/
theorem alignment_isPureRotation (poR poL zyoL se o : Point3) :
    IsPureRotation (MandibleNerveFlow.getFrankfortAlignment poR poL zyoL) ∧
    IsPureRotation (MandibleNerveFlow.getOSeAlignment poR poL se o) :=
  ⟨isPureRotation_stages _ _ _, isPureRotation_stages _ _ _⟩

/-- C2: the matrix returned by `getFrankfortAlignment` (and by
`getOSeAlignment`) equals the composition `R3 * R2 * R1` of the three stage
rotations, and applying it to a point is applying the stage-1 rotation
first, then stage 2, then stage 3. -/
theorem alignment_stage_composition (poR poL zyoL se o p : Point3) :
    (MandibleNerveFlow.getFrankfortAlignment poR poL zyoL =
      frankfortT3 poR poL zyoL * frankfortT2 poR poL * frankfortT1 poR poL) ∧
    (applyMat (MandibleNerveFlow.getFrankfortAlignment poR poL zyoL) p =
      applyMat (frankfortT3 poR poL zyoL)
        (applyMat (frankfortT2 poR poL) (applyMat (frankfortT1 poR poL) p))) ∧
    (MandibleNerveFlow.getOSeAlignment poR poL se o =
      oSeT3 poR poL se o * oSeT2 poR poL * oSeT1 poR poL) ∧
    (applyMat (MandibleNerveFlow.getOSeAlignment poR poL se o) p =
      applyMat (oSeT3 poR poL se o)
        (applyMat (oSeT2 poR poL) (applyMat (oSeT1 poR poL) p))) := by
  refine ⟨rfl, ?_, rfl, ?_⟩
  · rw [getFrankfortAlignment_stages,
      applyMat_mul _ (homFrame_frankfortT1 poR poL),
      applyMat_mul _ (homFrame_frankfortT2 poR poL)]
  · rw [getOSeAlignment_stages,
      applyMat_mul _ (homFrame_oSeT1 poR poL),
      applyMat_mul _ (homFrame_oSeT2 poR poL)]

/-- C6: in the sagittal alignment `getOSeAlignment poR poL se o` (called
with `se` respectively `na` as the varying midline point and `o` as the
fixed one), the stage-3 rotation is about the x axis by
`-arctan2(dz, dy)` of the vector `se - o` as it stands after the stage-1
and stage-2 rotations have been applied to both midline points. -/
theorem oSe_stage3_angle (poR poL se o : Point3) :
    MandibleNerveFlow.getOSeAlignment poR poL se o =
      rotX (-atan2
        ((applyMat (oSeT2 poR poL) (applyMat (oSeT1 poR poL) se)).z -
         (applyMat (oSeT2 poR poL) (applyMat (oSeT1 poR poL) o)).z)
        ((applyMat (oSeT2 poR poL) (applyMat (oSeT1 poR poL) se)).y -
         (applyMat (oSeT2 poR poL) (applyMat (oSeT1 poR poL) o)).y)) *
      oSeT2 poR poL * oSeT1 poR poL := by
  rw [getOSeAlignment_stages]
  have h : oSeT3 poR poL se o = rotX (-atan2
      ((applyMat (oSeT2 poR poL) (applyMat (oSeT1 poR poL) se)).z -
       (applyMat (oSeT2 poR poL) (applyMat (oSeT1 poR poL) o)).z)
      ((applyMat (oSeT2 poR poL) (applyMat (oSeT1 poR poL) se)).y -
       (applyMat (oSeT2 poR poL) (applyMat (oSeT1 poR poL) o)).y)) := by
    unfold oSeT3
    exact rotXdeg_eq _
  rw [h]

/-- C9: the three textually duplicated copies of the alignment functions
(in LandmarkFlow.py, MandibleNerveFlow.py and CranIALCTAnnotation.py) are
behaviorally identical: they return equal matrices on every input. -/
theorem alignment_copies_equal (poR poL zyoL se o : Point3) :
    (LandmarkFlow.getFrankfortAlignment poR poL zyoL =
      MandibleNerveFlow.getFrankfortAlignment poR poL zyoL) ∧
    (CranIALCT.getFrankfortAlignment poR poL zyoL =
      MandibleNerveFlow.getFrankfortAlignment poR poL zyoL) ∧
    (LandmarkFlow.getOSeAlignment poR poL se o =
      MandibleNerveFlow.getOSeAlignment poR poL se o) ∧
    (CranIALCT.getOSeAlignment poR poL se o =
      MandibleNerveFlow.getOSeAlignment poR poL se o) :=
  ⟨rfl, rfl, rfl, rfl⟩

/-- C3: for every input with `poR` different from `poL`, the Frankfort matrix
maps `poR` and `poL` to points with equal `y` and equal `z` coordinates:
they differ only along the `x` axis. -/
theorem frankfort_levels_poR_poL (poR poL zyoL : Point3) (h : poR ≠ poL) :
    (applyMat (MandibleNerveFlow.getFrankfortAlignment poR poL zyoL) poR).y =
      (applyMat (MandibleNerveFlow.getFrankfortAlignment poR poL zyoL) poL).y ∧
    (applyMat (MandibleNerveFlow.getFrankfortAlignment poR poL zyoL) poR).z =
      (applyMat (MandibleNerveFlow.getFrankfortAlignment poR poL zyoL) poL).z := by
  have hd := frankfort_diff poR poL zyoL
  constructor
  · have hy := congrArg Point3.y hd
    simp only [Point3.sub_y] at hy
    rw [← sub_eq_zero]
    simpa using hy
  · have hz := congrArg Point3.z hd
    simp only [Point3.sub_z] at hz
    rw [← sub_eq_zero]
    simpa using hz

/-- Witness for C3 at a concrete input. -/
theorem frankfort_levels_poR_poL_witness :
    ((⟨50, 0, 0⟩ : Point3) ≠ ⟨-50, 0, 0⟩) ∧
    ((applyMat (MandibleNerveFlow.getFrankfortAlignment ⟨50, 0, 0⟩ ⟨-50, 0, 0⟩
        ⟨0, 80, 100⟩) ⟨50, 0, 0⟩).y =
      (applyMat (MandibleNerveFlow.getFrankfortAlignment ⟨50, 0, 0⟩ ⟨-50, 0, 0⟩
        ⟨0, 80, 100⟩) ⟨-50, 0, 0⟩).y ∧
     (applyMat (MandibleNerveFlow.getFrankfortAlignment ⟨50, 0, 0⟩ ⟨-50, 0, 0⟩
        ⟨0, 80, 100⟩) ⟨50, 0, 0⟩).z =
      (applyMat (MandibleNerveFlow.getFrankfortAlignment ⟨50, 0, 0⟩ ⟨-50, 0, 0⟩
        ⟨0, 80, 100⟩) ⟨-50, 0, 0⟩).z) := by
  have hne : (⟨50, 0, 0⟩ : Point3) ≠ ⟨-50, 0, 0⟩ := by
    intro hc
    have := congrArg Point3.x hc
    norm_num at this
  exact ⟨hne, frankfort_levels_poR_poL _ _ _ hne⟩

lemma whereFirst_eq_none {names : List String} {nm : String} (h : nm ∉ names) :
    whereFirst names nm = none := by
  induction names with
  | nil => rfl
  | cons a rest ih =>
    rw [List.mem_cons, not_or] at h
    simp only [whereFirst]
    rw [if_neg (fun hc => h.1 hc.symm), ih h.2]
    rfl

lemma whereFirst_lt_length {names : List String} {nm : String} {i : Nat}
    (h : whereFirst names nm = some i) : i < names.length := by
  induction names generalizing i with
  | nil => exact absurd h (by simp [whereFirst])
  | cons a rest ih =>
    rw [whereFirst] at h
    by_cases hc : a = nm
    · rw [if_pos hc] at h
      cases h
      simp
    · rw [if_neg hc] at h
      obtain ⟨j, hj, hji⟩ := Option.map_eq_some'.mp h
      subst hji
      simpa using Nat.succ_lt_succ (ih hj)

/-- C4 counterexample: when the configured name list omits "zyoL", the
`onFrankfort` handler does not reach the user-facing warning at all: the
`np.where(...)[0][0]` lookup raises an uncaught `IndexError` first, so the
outcome is `raised`, not `warned`. -/
theorem onFrankfort_missing_name_not_warned :
    MandibleNerveFlow.onFrankfort ["poR", "poL"] [] = AlignOutcome.raised ∧
    AlignOutcome.raised ≠ AlignOutcome.warned :=
  ⟨rfl, fun hc => AlignOutcome.noConfusion hc⟩

/-- C4 amended: when a required landmark name ("zyoL") is absent from the
configured name list, `onFrankfort` produces no matrix and mutates no
transform, but it terminates with an uncaught `IndexError` from the name
lookup instead of surfacing the user-facing warning. -/
theorem onFrankfort_missing_name_raises (names : List String)
    (fids : List Point3) (h : "zyoL" ∉ names) :
    MandibleNerveFlow.onFrankfort names fids = AlignOutcome.raised := by
  unfold MandibleNerveFlow.onFrankfort
  rw [whereFirst_eq_none h]
  split <;> rfl

/-- Witness for the amended C4 at a concrete input. -/
theorem onFrankfort_missing_name_raises_witness :
    (("zyoL" : String) ∉ ["poR", "poL"]) ∧
    MandibleNerveFlow.onFrankfort ["poR", "poL"] [] = AlignOutcome.raised := by
  have h : ("zyoL" : String) ∉ ["poR", "poL"] := by decide
  exact ⟨h, onFrankfort_missing_name_raises _ _ h⟩

/-- C5 counterexample: with five configured names and six placed points,
every required landmark index (0, 1, 2) is below the placed-point count, yet
`onFrankfort` neither computes a matrix nor warns: the pre-guard relabel
loop `SetNthFiducialLabel(i, self.landmarkNames[i])` raises an uncaught
`IndexError` at `i = 5`. -/
theorem handlers_guard_counterexample :
    whereFirst ["poR", "poL", "zyoL", "o", "se"] "zyoL" = some 2 ∧
    whereFirst ["poR", "poL", "zyoL", "o", "se"] "poR" = some 0 ∧
    whereFirst ["poR", "poL", "zyoL", "o", "se"] "poL" = some 1 ∧
    (2 : Nat) < 6 ∧ (0 : Nat) < 6 ∧ (1 : Nat) < 6 ∧
    MandibleNerveFlow.onFrankfort ["poR", "poL", "zyoL", "o", "se"]
        [⟨1, 2, 3⟩, ⟨4, 5, 6⟩, ⟨7, 8, 9⟩, ⟨10, 11, 12⟩, ⟨13, 14, 15⟩,
         ⟨16, 17, 18⟩] = AlignOutcome.raised ∧
    AlignOutcome.raised ≠ AlignOutcome.applied
      (MandibleNerveFlow.getFrankfortAlignment ⟨1, 2, 3⟩ ⟨4, 5, 6⟩
        ⟨7, 8, 9⟩) ∧
    AlignOutcome.raised ≠ AlignOutcome.warned :=
  ⟨rfl, rfl, rfl, by norm_num, by norm_num, by norm_num, rfl,
    fun hc => AlignOutcome.noConfusion hc,
    fun hc => AlignOutcome.noConfusion hc⟩

/-- C5 amended: when every required landmark name resolves to an index but
some index is not below the number of placed fiducial points, the handlers
(`onFrankfort`, `onOSeaAlignment`) warn ("All necessary landmarks not
marked yet") and return without producing a matrix; conversely, when at
most as many points are placed as there are configured names (otherwise the
pre-guard relabel loop raises an uncaught `IndexError`) and every required
index is below the placed-point count, the alignment matrix is computed
from the fiducial positions and applied. -/
theorem handlers_guard_placed_points (names : List String) (fids : List Point3)
    (zid rid lid oid sid : Nat)
    (hz : whereFirst names "zyoL" = some zid)
    (hr : whereFirst names "poR" = some rid)
    (hl : whereFirst names "poL" = some lid)
    (ho : whereFirst names "o" = some oid)
    (hs : whereFirst names "se" = some sid) :
    ((fids.length ≤ zid ∨ fids.length ≤ rid ∨ fids.length ≤ lid) →
      MandibleNerveFlow.onFrankfort names fids = AlignOutcome.warned) ∧
    (fids.length ≤ names.length → zid < fids.length → rid < fids.length →
        lid < fids.length →
      MandibleNerveFlow.onFrankfort names fids = AlignOutcome.applied
        (MandibleNerveFlow.getFrankfortAlignment (fids.getD rid ⟨0, 0, 0⟩)
          (fids.getD lid ⟨0, 0, 0⟩) (fids.getD zid ⟨0, 0, 0⟩))) ∧
    ((fids.length ≤ sid ∨ fids.length ≤ oid ∨ fids.length ≤ rid ∨
        fids.length ≤ lid) →
      MandibleNerveFlow.onOSeaAlignment names fids = AlignOutcome.warned) ∧
    (fids.length ≤ names.length → sid < fids.length → oid < fids.length →
        rid < fids.length → lid < fids.length →
      MandibleNerveFlow.onOSeaAlignment names fids = AlignOutcome.applied
        (MandibleNerveFlow.getOSeAlignment (fids.getD rid ⟨0, 0, 0⟩)
          (fids.getD lid ⟨0, 0, 0⟩) (fids.getD sid ⟨0, 0, 0⟩)
          (fids.getD oid ⟨0, 0, 0⟩))) := by
  have hzlt := whereFirst_lt_length hz
  have hrlt := whereFirst_lt_length hr
  have hllt := whereFirst_lt_length hl
  have holt := whereFirst_lt_length ho
  have hslt := whereFirst_lt_length hs
  have hF : ¬(names.length < fids.length) →
      MandibleNerveFlow.onFrankfort names fids =
        if fids.length ≤ zid ∨ fids.length ≤ rid ∨ fids.length ≤ lid then
          AlignOutcome.warned
        else
          AlignOutcome.applied (MandibleNerveFlow.getFrankfortAlignment
            (fids.getD rid ⟨0, 0, 0⟩) (fids.getD lid ⟨0, 0, 0⟩)
            (fids.getD zid ⟨0, 0, 0⟩)) := by
    intro hlen
    unfold MandibleNerveFlow.onFrankfort
    rw [if_neg hlen, hz, hr, hl]
  have hO : ¬(names.length < fids.length) →
      MandibleNerveFlow.onOSeaAlignment names fids =
        if fids.length ≤ sid ∨ fids.length ≤ oid ∨ fids.length ≤ rid ∨
            fids.length ≤ lid then
          AlignOutcome.warned
        else
          AlignOutcome.applied (MandibleNerveFlow.getOSeAlignment
            (fids.getD rid ⟨0, 0, 0⟩) (fids.getD lid ⟨0, 0, 0⟩)
            (fids.getD sid ⟨0, 0, 0⟩) (fids.getD oid ⟨0, 0, 0⟩)) := by
    intro hlen
    unfold MandibleNerveFlow.onOSeaAlignment
    rw [if_neg hlen, ho, hs, hr, hl]
  refine ⟨?_, ?_, ?_, ?_⟩
  · intro hcond
    have hlen : ¬(names.length < fids.length) := by
      rcases hcond with h1 | h1 | h1 <;> omega
    rw [hF hlen, if_pos hcond]
  · intro hlen h1 h2 h3
    rw [hF (not_lt.mpr hlen), if_neg (by omega)]
  · intro hcond
    have hlen : ¬(names.length < fids.length) := by
      rcases hcond with h1 | h1 | h1 | h1 <;> omega
    rw [hO hlen, if_pos hcond]
  · intro hlen h1 h2 h3 h4
    rw [hO (not_lt.mpr hlen), if_neg (by omega)]

/-- Witness for the amended C5 at a concrete input: with names
`["poR", "poL", "zyoL", "o", "se"]` and three placed points, `onFrankfort`
computes and applies the matrix (indices 0, 1, 2 are placed) while
`onOSeaAlignment` warns (index 4 for "se" is not placed). -/
theorem handlers_guard_placed_points_witness :
    MandibleNerveFlow.onFrankfort ["poR", "poL", "zyoL", "o", "se"]
        [⟨1, 2, 3⟩, ⟨4, 5, 6⟩, ⟨7, 8, 9⟩] =
      AlignOutcome.applied (MandibleNerveFlow.getFrankfortAlignment
        ⟨1, 2, 3⟩ ⟨4, 5, 6⟩ ⟨7, 8, 9⟩) ∧
    MandibleNerveFlow.onOSeaAlignment ["poR", "poL", "zyoL", "o", "se"]
        [⟨1, 2, 3⟩, ⟨4, 5, 6⟩, ⟨7, 8, 9⟩] = AlignOutcome.warned := by
  have h := handlers_guard_placed_points ["poR", "poL", "zyoL", "o", "se"]
    [⟨1, 2, 3⟩, ⟨4, 5, 6⟩, ⟨7, 8, 9⟩] 2 0 1 3 4 rfl rfl rfl rfl rfl
  constructor
  · have h2 := h.2.1 (by norm_num) (by norm_num) (by norm_num) (by norm_num)
    simpa using h2
  · exact h.2.2.1 (by norm_num)

namespace MandibleNerveFlow

/-- Stage 1 is the identity when `poR`, `poL` share their `y` coordinate and
`poR` is not to the left of `poL`. -/
lemma frankfortT1_level {poR poL : Point3} (hy : poR.y = poL.y)
    (hx : poL.x ≤ poR.x) : frankfortT1 poR poL = 1 := by
  rw [frankfortT1_eq, hy, sub_self,
    atan2_zero_of_nonneg (sub_nonneg.mpr hx), neg_zero, rotZ_zero]

/-- Stage 2 is the identity when `poR`, `poL` share their `z` coordinate. -/
lemma frankfortT2_level {poR poL : Point3} (hz : poR.z = poL.z) :
    frankfortT2 poR poL = 1 := by
  rw [frankfortT2_eq, hz, sub_self,
    atan2_zero_of_nonneg (Real.sqrt_nonneg _), rotY_zero]

/-- When the first two stages are the identity, stage 3 rotates about the x
axis by `-arctan2` of the (z, y) components of the vector from the midpoint
of `poR`, `poL` to `zyoL`. -/
lemma frankfortT3_of_ones {poR poL : Point3} (zyoL : Point3)
    (h1 : frankfortT1 poR poL = 1) (h2 : frankfortT2 poR poL = 1) :
    frankfortT3 poR poL zyoL =
      rotX (-atan2 (zyoL.z - (poR.z + poL.z) / 2)
        (zyoL.y - (poR.y + poL.y) / 2)) := by
  unfold frankfortT3
  rw [h1, h2]
  simp only [applyMat_one]
  exact rotXdeg_eq _

end MandibleNerveFlow

/-- C7: for an already-level Frankfort input — `poR`, `poL` symmetric about
the origin on the x axis at the same height and the third point directly
"above" their midpoint (along the `+y` axis, the direction that the code's
stage 3 designates as vertical, consistent with the spec's concrete
scenario) — `getFrankfortAlignment` returns the identity rotation. -/
theorem frankfort_identity_on_level_input (a h : ℝ) (ha : 0 < a)
    (hh : 0 < h) :
    MandibleNerveFlow.getFrankfortAlignment ⟨a, 0, 0⟩ ⟨-a, 0, 0⟩ ⟨0, h, 0⟩ =
      1 := by
  have h1 : frankfortT1 ⟨a, 0, 0⟩ ⟨-a, 0, 0⟩ = 1 :=
    frankfortT1_level rfl (by simp; linarith)
  have h2 : frankfortT2 ⟨a, 0, 0⟩ ⟨-a, 0, 0⟩ = 1 := frankfortT2_level rfl
  have h3 : frankfortT3 ⟨a, 0, 0⟩ ⟨-a, 0, 0⟩ ⟨0, h, 0⟩ = 1 := by
    rw [frankfortT3_of_ones _ h1 h2]
    have e1 : (Point3.mk 0 h 0).z -
        ((Point3.mk a 0 0).z + (Point3.mk (-a) 0 0).z) / 2 = 0 := by
      simp
    have e2 : (Point3.mk 0 h 0).y -
        ((Point3.mk a 0 0).y + (Point3.mk (-a) 0 0).y) / 2 = h := by
      simp
    rw [e1, e2, atan2_zero_of_nonneg hh.le, neg_zero, rotX_zero]
  rw [getFrankfortAlignment_stages, h1, h2, h3, mul_one, mul_one]

/-- Witness for C7 at a concrete input. -/
theorem frankfort_identity_on_level_input_witness :
    (0 : ℝ) < 50 ∧ (0 : ℝ) < 80 ∧
    MandibleNerveFlow.getFrankfortAlignment ⟨50, 0, 0⟩ ⟨-50, 0, 0⟩
      ⟨0, 80, 0⟩ = 1 :=
  ⟨by norm_num, by norm_num,
    frankfort_identity_on_level_input 50 80 (by norm_num) (by norm_num)⟩

/-- C8: for the concrete input `poR = (50,0,0)`, `poL = (-50,0,0)`,
`third = (0,80,100)`, the Frankfort matrix maps `poR` and `poL` to points of
equal height and equal depth (equal `y` and equal `z`), and maps `third` to
a point whose `x` and `z` components coincide with those of the transformed
midpoint of `poR` and `poL`: the third point ends up directly "above" the
midpoint along the `+y` axis. -/
theorem frankfort_concrete_scenario :
    (applyMat (MandibleNerveFlow.getFrankfortAlignment ⟨50, 0, 0⟩
        ⟨-50, 0, 0⟩ ⟨0, 80, 100⟩) ⟨50, 0, 0⟩).y =
      (applyMat (MandibleNerveFlow.getFrankfortAlignment ⟨50, 0, 0⟩
        ⟨-50, 0, 0⟩ ⟨0, 80, 100⟩) ⟨-50, 0, 0⟩).y ∧
    (applyMat (MandibleNerveFlow.getFrankfortAlignment ⟨50, 0, 0⟩
        ⟨-50, 0, 0⟩ ⟨0, 80, 100⟩) ⟨50, 0, 0⟩).z =
      (applyMat (MandibleNerveFlow.getFrankfortAlignment ⟨50, 0, 0⟩
        ⟨-50, 0, 0⟩ ⟨0, 80, 100⟩) ⟨-50, 0, 0⟩).z ∧
    (applyMat (MandibleNerveFlow.getFrankfortAlignment ⟨50, 0, 0⟩
        ⟨-50, 0, 0⟩ ⟨0, 80, 100⟩) ⟨0, 80, 100⟩).x =
      ((applyMat (MandibleNerveFlow.getFrankfortAlignment ⟨50, 0, 0⟩
          ⟨-50, 0, 0⟩ ⟨0, 80, 100⟩) ⟨50, 0, 0⟩).x +
       (applyMat (MandibleNerveFlow.getFrankfortAlignment ⟨50, 0, 0⟩
          ⟨-50, 0, 0⟩ ⟨0, 80, 100⟩) ⟨-50, 0, 0⟩).x) / 2 ∧
    (applyMat (MandibleNerveFlow.getFrankfortAlignment ⟨50, 0, 0⟩
        ⟨-50, 0, 0⟩ ⟨0, 80, 100⟩) ⟨0, 80, 100⟩).z =
      ((applyMat (MandibleNerveFlow.getFrankfortAlignment ⟨50, 0, 0⟩
          ⟨-50, 0, 0⟩ ⟨0, 80, 100⟩) ⟨50, 0, 0⟩).z +
       (applyMat (MandibleNerveFlow.getFrankfortAlignment ⟨50, 0, 0⟩
          ⟨-50, 0, 0⟩ ⟨0, 80, 100⟩) ⟨-50, 0, 0⟩).z) / 2 := by
  have h1 : frankfortT1 ⟨50, 0, 0⟩ ⟨-50, 0, 0⟩ = 1 :=
    frankfortT1_level rfl (by norm_num)
  have h2 : frankfortT2 ⟨50, 0, 0⟩ ⟨-50, 0, 0⟩ = 1 := frankfortT2_level rfl
  have h3 : frankfortT3 ⟨50, 0, 0⟩ ⟨-50, 0, 0⟩ ⟨0, 80, 100⟩ =
      rotX (-atan2 100 80) := by
    rw [frankfortT3_of_ones _ h1 h2]
    have e1 : (Point3.mk 0 80 100).z -
        ((Point3.mk 50 0 0).z + (Point3.mk (-50) 0 0).z) / 2 = 100 := by
      simp
    have e2 : (Point3.mk 0 80 100).y -
        ((Point3.mk 50 0 0).y + (Point3.mk (-50) 0 0).y) / 2 = 80 := by
      simp
    rw [e1, e2]
  have hM : MandibleNerveFlow.getFrankfortAlignment ⟨50, 0, 0⟩ ⟨-50, 0, 0⟩
      ⟨0, 80, 100⟩ = rotX (-atan2 100 80) := by
    rw [MandibleNerveFlow.getFrankfortAlignment_stages, h1, h2, h3, mul_one,
      mul_one]
  have hthird : applyMat (rotX (-atan2 100 80)) ⟨0, 80, 100⟩ =
      ⟨0, Real.sqrt (80 ^ 2 + 100 ^ 2), 0⟩ := rotX_align 0 80 100
  rw [hM, hthird, rotX_apply, rotX_apply]
  norm_num

namespace MandibleNerveFlow

lemma frankfortT1_translate (poR poL t : Point3) :
    frankfortT1 (poR + t) (poL + t) = frankfortT1 poR poL := by
  unfold frankfortT1
  rw [show (poR + t).y - (poL + t).y = poR.y - poL.y by
      simp only [Point3.add_y]; ring,
    show (poR + t).x - (poL + t).x = poR.x - poL.x by
      simp only [Point3.add_x]; ring]

lemma frankfortT2_translate (poR poL t : Point3) :
    frankfortT2 (poR + t) (poL + t) = frankfortT2 poR poL := by
  unfold frankfortT2
  rw [frankfortT1_translate]
  rw [show (applyMat (frankfortT1 poR poL) (poR + t)).z -
        (applyMat (frankfortT1 poR poL) (poL + t)).z =
      (applyMat (frankfortT1 poR poL) poR).z -
        (applyMat (frankfortT1 poR poL) poL).z by
      rw [applyMat_add_lin, applyMat_add_lin]; simp only [Point3.add_z]; ring,
    show (applyMat (frankfortT1 poR poL) (poR + t)).x -
        (applyMat (frankfortT1 poR poL) (poL + t)).x =
      (applyMat (frankfortT1 poR poL) poR).x -
        (applyMat (frankfortT1 poR poL) poL).x by
      rw [applyMat_add_lin, applyMat_add_lin]; simp only [Point3.add_x]; ring]

lemma frankfortT3_translate (poR poL zyoL t : Point3) :
    frankfortT3 (poR + t) (poL + t) (zyoL + t) = frankfortT3 poR poL zyoL := by
  unfold frankfortT3
  rw [frankfortT1_translate, frankfortT2_translate]
  simp only [applyMat_add_lin, Point3.add_x, Point3.add_y, Point3.add_z]
  congr 1
  congr 1
  congr 1
  congr 1 <;> ring

lemma oSeT1_translate (poR poL t : Point3) :
    oSeT1 (poR + t) (poL + t) = oSeT1 poR poL :=
  frankfortT1_translate poR poL t

lemma oSeT2_translate (poR poL t : Point3) :
    oSeT2 (poR + t) (poL + t) = oSeT2 poR poL :=
  frankfortT2_translate poR poL t

lemma oSeT3_translate (poR poL se o t : Point3) :
    oSeT3 (poR + t) (poL + t) (se + t) (o + t) = oSeT3 poR poL se o := by
  unfold oSeT3
  rw [oSeT1_translate, oSeT2_translate]
  simp only [applyMat_add_lin, Point3.add_x, Point3.add_y, Point3.add_z]
  congr 1
  congr 1
  congr 1
  congr 1 <;> ring

end MandibleNerveFlow

/-- C10: both alignment operations are invariant under a common translation
of all their input points: the returned rotation depends only on the
relative positions of the landmarks. -/
theorem alignment_translation_invariant (poR poL zyoL se o t : Point3) :
    MandibleNerveFlow.getFrankfortAlignment (poR + t) (poL + t) (zyoL + t) =
      MandibleNerveFlow.getFrankfortAlignment poR poL zyoL ∧
    MandibleNerveFlow.getOSeAlignment (poR + t) (poL + t) (se + t) (o + t) =
      MandibleNerveFlow.getOSeAlignment poR poL se o := by
  constructor
  · rw [MandibleNerveFlow.getFrankfortAlignment_stages,
      MandibleNerveFlow.getFrankfortAlignment_stages,
      frankfortT1_translate, frankfortT2_translate, frankfortT3_translate]
  · rw [MandibleNerveFlow.getOSeAlignment_stages,
      MandibleNerveFlow.getOSeAlignment_stages,
      oSeT1_translate, oSeT2_translate, oSeT3_translate]
